import Mathlib

/-!
Shallow embedding of the physical-memory subsystem of the swerv-ISS
RISC-V simulator (src/Memory.hpp), together with proofs about its
access, masking, last-write and reservation behaviour.

Modelling conventions:
* Machine integers become Nat. A value of C type T with sizeof(T) = w
  bytes is a Nat below 2 ^ (8 * w); stores truncate exactly where the
  source truncates by converting to T.
* The byte buffer data_ becomes a total function Nat -> Nat holding the
  byte values; the source expression *(T*)(data_ + addr) becomes
  explicit little-endian byte assembly and disassembly (readBytes and
  writeBytes below), preserving the on-wire byte layout.
* The source expression address & (sizeof(T) - 1) is written
  address % w: for the power-of-two widths 1, 2, 4, 8 the two agree.
  Likewise (addr & 3) != 0 becomes addr % 4 != 0 and (addr & 1) becomes
  addr % 2 = 1.
* pageSize_ is 2 ^ pageShift_ (the source keeps both fields; its
  constructor enforces that pageSize_ is a power of two and that
  pageShift_ is its logarithm).
* lastWriteData_ becomes a total map from hart id to record. The source
  keeps a vector and indexes it with a bounds-checked access that aborts
  (rather than failing) on an out-of-range hart id, so the theorems
  describe the in-range behaviour.
* reservations_ stays a list because invalidateOtherHartLr iterates
  over its length; an out-of-range bounds-checked access, which aborts
  in the source, is modelled by a default value and excluded by
  hypotheses stating the hart id is in range.
* masks_ (one mask vector per page) stays a list of lists; a missing or
  empty vector yields the all-ones mask as the source documents.
-/

/-- Page attributes: the six per-page permission bits of the source
struct PageAttribs (read_, write_, exec_, reg_, iccm_, dccm_). -/
structure PageAttribs where
  read : Bool
  write : Bool
  exec : Bool
  reg : Bool
  iccm : Bool
  dccm : Bool
deriving DecidableEq

/-- The source default constructor sets every attribute to false. -/
instance : Inhabited PageAttribs :=
  ⟨⟨false, false, false, false, false, false⟩⟩

/-- Source PageAttribs::isMapped: readable, writable or executable. -/
def PageAttribs.isMapped (a : PageAttribs) : Bool :=
  a.read || a.write || a.exec

/-- Source struct Reservation: LR reservation of one hart. -/
structure Reservation where
  addr : Nat
  size : Nat
  valid : Bool
deriving DecidableEq

/-- The source default member initializers: addr 0, size 0, invalid. -/
instance : Inhabited Reservation := ⟨⟨0, 0, false⟩⟩

/-- Source struct LastWriteData: information about the last write
operation by a hart. -/
structure LastWriteData where
  size : Nat
  addr : Nat
  value : Nat
  prevValue : Nat
deriving DecidableEq

/-- The source default member initializers: all zero. -/
instance : Inhabited LastWriteData := ⟨⟨0, 0, 0, 0⟩⟩

/-- State of the source class Memory, restricted to the fields the
access, masking, last-write and reservation operations touch. -/
structure Memory where
  pageShift : Nat
  attribs : List PageAttribs
  masks : List (List Nat)
  data : Nat → Nat
  reservations : List Reservation
  lastWriteData : Nat → LastWriteData

/-- Little-endian read of n bytes starting at a: the value of
*(T*)(data_ + a) for sizeof(T) = n. Byte values are taken mod 256. -/
def readBytes (d : Nat → Nat) : Nat → Nat → Nat
  | _, 0 => 0
  | a, n + 1 => d a % 256 + 256 * readBytes d (a + 1) n

/-- Little-endian store of n bytes of v starting at a: the effect of
*(T*)(data_ + a) = v for sizeof(T) = n. -/
def writeBytes : (Nat → Nat) → Nat → Nat → Nat → Nat → Nat
  | d, _, _, 0 => d
  | d, a, v, n + 1 =>
      writeBytes (fun x => if x = a then v % 256 else d x) (a + 1) (v / 256) n

theorem writeBytes_lower (n : Nat) : ∀ (d : Nat → Nat) (a v x : Nat), x < a →
    writeBytes d a v n x = d x := by
  induction n with
  | zero => intro d a v x _; rfl
  | succ k ih =>
      intro d a v x hx
      unfold writeBytes
      rw [ih _ (a + 1) (v / 256) x (by omega)]
      simp only [if_neg (by omega : ¬ x = a)]

theorem readBytes_writeBytes (n : Nat) : ∀ (d : Nat → Nat) (a v : Nat),
    readBytes (writeBytes d a v n) a n = v % 256 ^ n := by
  induction n with
  | zero => intro d a v; simp [readBytes, writeBytes, Nat.mod_one]
  | succ k ih =>
      intro d a v
      unfold writeBytes readBytes
      rw [writeBytes_lower k _ (a + 1) (v / 256) a (by omega), ih]
      simp only [if_true]
      rw [Nat.mod_mod_of_dvd v (dvd_refl 256)]
      rw [show (256 : Nat) ^ (k + 1) = 256 * 256 ^ k by ring, Nat.mod_mul]

/-- Source Memory::getPageIx: addr >> pageShift_. -/
def Memory.getPageIx (m : Memory) (addr : Nat) : Nat :=
  addr >>> m.pageShift

/-- Source Memory::getAttrib: the attribute of the page containing the
address, or a default (all-false) PageAttribs when the page index is
outside the attribute table. -/
def Memory.getAttrib (m : Memory) (addr : Nat) : PageAttribs :=
  m.attribs.getD (m.getPageIx addr) default

/-- Source Memory::getPageStartAddr: (addr >> pageShift_) << pageShift_. -/
def Memory.getPageStartAddr (m : Memory) (addr : Nat) : Nat :=
  (addr >>> m.pageShift) <<< m.pageShift

/-- The all-ones 32-bit mask, the source expression ~uint32_t(0). -/
def allOnes32 : Nat := 2 ^ 32 - 1

/-- Source Memory::getMemoryMappedMask: all-ones when the mask table is
empty or the page has an empty mask vector, otherwise the mask of the
word containing the address. An out-of-range bounds-checked vector
access aborts in the source; it is modelled by the all-ones default the
source documents for absent masks. -/
def Memory.getMemoryMappedMask (m : Memory) (addr : Nat) : Nat :=
  if m.masks = [] then allOnes32
  else if m.masks.getD (m.getPageIx addr) [] = [] then allOnes32
  else (m.masks.getD (m.getPageIx addr) []).getD
         ((addr - m.getPageStartAddr addr) / 4) allOnes32

/-- Source Memory::doRegisterMasking: value & mask. -/
def Memory.doRegisterMasking (m : Memory) (addr v : Nat) : Nat :=
  v &&& m.getMemoryMappedMask addr

/-- Source Memory::readRegister: fails unless the address is
word-aligned, otherwise reads the raw word (no masking on read). -/
def Memory.readRegister (m : Memory) (addr : Nat) : Option Nat :=
  if addr % 4 ≠ 0 then none
  else some (readBytes m.data addr 4)

/-- The page-boundary-crossing check of Memory::read, written inline in
the source: passes when the access is aligned for its width or stays in
one page; otherwise the page holding one past the last byte (the source
probes address + sizeof(T)) must be readable, with the same DCCM
membership and the same register-page flag as the first page. -/
def Memory.crossCheckRead (m : Memory) (w addr : Nat) : Bool :=
  if addr % w = 0 then true
  else if m.getPageStartAddr addr = m.getPageStartAddr (addr + w - 1) then true
  else
    (m.getAttrib (addr + w)).read &&
    ((m.getAttrib addr).dccm == (m.getAttrib (addr + w)).dccm) &&
    ((m.getAttrib addr).reg == (m.getAttrib (addr + w)).reg)

/-- The page-boundary-crossing check of Memory::write and
Memory::checkWrite, written inline in the source: as crossCheckRead but
requiring the second page writable. -/
def Memory.crossCheckWrite (m : Memory) (w addr : Nat) : Bool :=
  if addr % w = 0 then true
  else if m.getPageStartAddr addr = m.getPageStartAddr (addr + w - 1) then true
  else
    (m.getAttrib (addr + w)).write &&
    ((m.getAttrib addr).dccm == (m.getAttrib (addr + w)).dccm) &&
    ((m.getAttrib addr).reg == (m.getAttrib (addr + w)).reg)

/-- Source template Memory::read for sizeof(T) = w: fails when the
start page is not readable or the crossing check fails; a 4-byte access
to a register page goes through readRegister, any other width fails on
a register page; otherwise reads w bytes little-endian. -/
def Memory.read (m : Memory) (w addr : Nat) : Option Nat :=
  if (m.getAttrib addr).read = false then none
  else if m.crossCheckRead w addr = false then none
  else if w = 4 then
    if (m.getAttrib addr).reg = true then m.readRegister addr
    else some (readBytes m.data addr 4)
  else if (m.getAttrib addr).reg = true then none
  else some (readBytes m.data addr w)

/-- Source Memory::readByte: fails when the page is not readable or is
a register page. -/
def Memory.readByte (m : Memory) (addr : Nat) : Option Nat :=
  if (m.getAttrib addr).read = false then none
  else if (m.getAttrib addr).reg = true then none
  else some (readBytes m.data addr 1)

/-- Source Memory::readInstHalfWord: requires the executable attribute;
when the address is odd and the two bytes span two pages, the second
page (probed at address + 1) must be executable and have the same ICCM
membership. -/
def Memory.readInstHalfWord (m : Memory) (addr : Nat) : Option Nat :=
  if (m.getAttrib addr).exec = true then
    if addr % 2 = 1 ∧ m.getPageStartAddr addr ≠ m.getPageStartAddr (addr + 1) then
      if (m.getAttrib (addr + 1)).exec = false then none
      else if (m.getAttrib addr).iccm ≠ (m.getAttrib (addr + 1)).iccm then none
      else some (readBytes m.data addr 2)
    else some (readBytes m.data addr 2)
  else none

/-- Source Memory::readInstWord: requires the executable attribute;
when the address is not 4-byte aligned and the four bytes span two
pages, the second page (probed at address + 3) must be executable and
have the same ICCM membership. -/
def Memory.readInstWord (m : Memory) (addr : Nat) : Option Nat :=
  if (m.getAttrib addr).exec = true then
    if addr % 4 ≠ 0 ∧ m.getPageStartAddr addr ≠ m.getPageStartAddr (addr + 3) then
      if (m.getAttrib (addr + 3)).exec = false then none
      else if (m.getAttrib addr).iccm ≠ (m.getAttrib (addr + 3)).iccm then none
      else some (readBytes m.data addr 4)
    else some (readBytes m.data addr 4)
  else none

/-- Source Memory::writeRegister: fails unless the address is
word-aligned; otherwise masks the value, records the previous word and
the masked value in the hart's last-write record, and stores the
masked value. -/
def Memory.writeRegister (m : Memory) (hartId addr v : Nat) : Bool × Memory :=
  if addr % 4 ≠ 0 then (false, m)
  else
    (true,
     { m with
       data := writeBytes m.data addr (m.doRegisterMasking addr v) 4,
       lastWriteData := fun i =>
         if i = hartId then
           ⟨4, addr, m.doRegisterMasking addr v, readBytes m.data addr 4⟩
         else m.lastWriteData i })

/-- Source template Memory::write for sizeof(T) = w: fails when the
start page is not writable or the crossing check fails; a 4-byte access
to a register page goes through writeRegister, any other width fails on
a register page; otherwise records the previous bytes and the stored
value (as a T, hence mod 2 ^ (8 w)) in the hart's last-write record and
stores w bytes little-endian. -/
def Memory.write (m : Memory) (hartId w addr v : Nat) : Bool × Memory :=
  if (m.getAttrib addr).write = false then (false, m)
  else if m.crossCheckWrite w addr = false then (false, m)
  else if w = 4 ∧ (m.getAttrib addr).reg = true then m.writeRegister hartId addr v
  else if (m.getAttrib addr).reg = true then (false, m)
  else
    (true,
     { m with
       data := writeBytes m.data addr v w,
       lastWriteData := fun i =>
         if i = hartId then ⟨w, addr, v % 2 ^ (8 * w), readBytes m.data addr w⟩
         else m.lastWriteData i })

/-- Source template Memory::checkWrite for sizeof(T) = w: the same
validation as write without any mutation; for a 4-byte access it fails
on a misaligned register-page address and otherwise replaces the value
with its masked form; the second component is the (possibly updated)
reference parameter value. -/
def Memory.checkWrite (m : Memory) (w addr v : Nat) : Bool × Nat :=
  if (m.getAttrib addr).write = false then (false, v)
  else if m.crossCheckWrite w addr = false then (false, v)
  else if w = 4 then
    if (m.getAttrib addr).reg = true ∧ addr % 4 ≠ 0 then (false, v)
    else (true, m.doRegisterMasking addr v)
  else if (m.getAttrib addr).reg = true then (false, v)
  else (true, v)

/-- Source Memory::writeByte: fails when the page is not writable or is
a register page; otherwise records the previous byte and the stored
byte in the hart's last-write record and stores the byte. -/
def Memory.writeByte (m : Memory) (hartId addr v : Nat) : Bool × Memory :=
  if (m.getAttrib addr).write = false then (false, m)
  else if (m.getAttrib addr).reg = true then (false, m)
  else
    (true,
     { m with
       data := writeBytes m.data addr v 1,
       lastWriteData := fun i =>
         if i = hartId then ⟨1, addr, v % 256, readBytes m.data addr 1⟩
         else m.lastWriteData i })

/-- Source template Memory::poke for sizeof(T) = w: requires only a
mapped page; when the access runs past the page end the next page
(probed at address + sizeof(T)) must also be mapped; a 4-byte poke of a
register page must be word-aligned, other widths fail on register
pages; stores without masking and without touching last-write data. -/
def Memory.poke (m : Memory) (w addr v : Nat) : Bool × Memory :=
  if (m.getAttrib addr).isMapped = false then (false, m)
  else if addr + w > m.getPageStartAddr addr + 2 ^ m.pageShift ∧
          (m.getAttrib (addr + w)).isMapped = false then (false, m)
  else if w = 4 then
    if (m.getAttrib addr).reg = true ∧ addr % 4 ≠ 0 then (false, m)
    else (true, { m with data := writeBytes m.data addr v 4 })
  else if (m.getAttrib addr).reg = true then (false, m)
  else (true, { m with data := writeBytes m.data addr v w })

/-- The per-reservation step of Memory::invalidateOtherHartLr: the
reservation of the writing hart itself is kept; any other reservation
is invalidated when addr >= res.addr and addr - res.addr < res.size, or
addr < res.addr and res.addr - addr < storeSize. -/
def invalidateRes (hartId addr storeSize i : Nat) (res : Reservation) : Reservation :=
  if i = hartId then res
  else if addr ≥ res.addr ∧ addr - res.addr < res.size then { res with valid := false }
  else if addr < res.addr ∧ res.addr - addr < storeSize then { res with valid := false }
  else res

/-- The loop of Memory::invalidateOtherHartLr over the reservation
vector, carrying the running index. -/
def invalidateFrom (hartId addr storeSize : Nat) : Nat → List Reservation → List Reservation
  | _, [] => []
  | i, res :: rest =>
      invalidateRes hartId addr storeSize i res ::
      invalidateFrom hartId addr storeSize (i + 1) rest

/-- Source Memory::invalidateOtherHartLr. -/
def Memory.invalidateOtherHartLr (m : Memory) (hartId addr storeSize : Nat) : Memory :=
  { m with reservations := invalidateFrom hartId addr storeSize 0 m.reservations }

/-- Source Memory::invalidateLr: clears the validity of one hart's
reservation. -/
def Memory.invalidateLr (m : Memory) (hartId : Nat) : Memory :=
  { m with reservations :=
      m.reservations.set hartId ({ m.reservations.getD hartId default with valid := false }) }

/-- Source Memory::makeLr: unconditionally installs a valid reservation
with the given address and size for the hart. -/
def Memory.makeLr (m : Memory) (hartId addr size : Nat) : Memory :=
  { m with reservations := m.reservations.set hartId ⟨addr, size, true⟩ }

/-- Source Memory::hasLr: the hart's reservation is valid and its
address equals addr exactly. -/
def Memory.hasLr (m : Memory) (hartId addr : Nat) : Bool :=
  (m.reservations.getD hartId default).valid &&
  ((m.reservations.getD hartId default).addr == addr)

/-- Source Memory::getLastWriteNewValue: returns the size of the last
write; when it is nonzero also returns its address and (new) value,
otherwise the addr and value reference parameters are left as passed. -/
def Memory.getLastWriteNewValue (m : Memory) (hartId addr value : Nat) :
    Nat × Nat × Nat :=
  if (m.lastWriteData hartId).size ≠ 0 then
    ((m.lastWriteData hartId).size, (m.lastWriteData hartId).addr,
     (m.lastWriteData hartId).value)
  else ((m.lastWriteData hartId).size, addr, value)

/-- Source three-argument Memory::getLastWriteOldValue. Note: despite
its doc comment promising the previous value, the source assigns
lwd.value_, the newly written value, to the value reference parameter
(the two-argument overload below assigns lwd.prevValue_). -/
def Memory.getLastWriteOldValue (m : Memory) (hartId addr value : Nat) :
    Nat × Nat × Nat :=
  if (m.lastWriteData hartId).size ≠ 0 then
    ((m.lastWriteData hartId).size, (m.lastWriteData hartId).addr,
     (m.lastWriteData hartId).value)
  else ((m.lastWriteData hartId).size, addr, value)

/-- Source two-argument Memory::getLastWriteOldValue, which assigns
lwd.prevValue_, the memory value before the last write. -/
def Memory.getLastWriteOldValuePrev (m : Memory) (hartId value : Nat) :
    Nat × Nat :=
  if (m.lastWriteData hartId).size ≠ 0 then
    ((m.lastWriteData hartId).size, (m.lastWriteData hartId).prevValue)
  else ((m.lastWriteData hartId).size, value)

/-- Source Memory::clearLastWriteInfo: zeroes the size of the hart's
last-write record. -/
def Memory.clearLastWriteInfo (m : Memory) (hartId : Nat) : Memory :=
  { m with lastWriteData := fun i =>
      if i = hartId then { m.lastWriteData i with size := 0 }
      else m.lastWriteData i }

/-- Modelled from the spec text of the reservation tracker: the
half-open intervals [a, a + s) and [b, b + t) intersect. For half-open
intervals over Nat this is the standard characterization
max a b < min (a + s) (b + t); the lemma below relates it to the
pointwise form. -/
def intervalsIntersect (a s b t : Nat) : Prop :=
  max a b < min (a + s) (b + t)

instance (a s b t : Nat) : Decidable (intervalsIntersect a s b t) :=
  Nat.decLt _ _

theorem intervalsIntersect_iff_exists (a s b t : Nat) :
    intervalsIntersect a s b t ↔
      ∃ x, (a ≤ x ∧ x < a + s) ∧ (b ≤ x ∧ x < b + t) := by
  unfold intervalsIntersect
  constructor
  · intro h
    exact ⟨max a b, by omega, by omega⟩
  · rintro ⟨x, hx⟩
    omega

/-- Modelled from the spec text of instruction fetch: a half-word fetch
is acceptable when the start page is executable and, whenever the
address is odd (a 2-byte crossing is possible) and the two bytes lie in
different pages, the second page is also executable with the same ICCM
membership as the first. -/
def instFetchHalfOk (m : Memory) (a : Nat) : Prop :=
  (m.getAttrib a).exec = true ∧
  (a % 2 = 1 → m.getPageStartAddr a ≠ m.getPageStartAddr (a + 1) →
    ((m.getAttrib (a + 1)).exec = true ∧
     (m.getAttrib a).iccm = (m.getAttrib (a + 1)).iccm))

/-- Modelled from the spec text of instruction fetch: a word fetch is
acceptable when the start page is executable and, whenever the address
is not 4-byte aligned and the four bytes lie in different pages, the
second page is also executable with the same ICCM membership as the
first. -/
def instFetchWordOk (m : Memory) (a : Nat) : Prop :=
  (m.getAttrib a).exec = true ∧
  (a % 4 ≠ 0 → m.getPageStartAddr a ≠ m.getPageStartAddr (a + 3) →
    ((m.getAttrib (a + 3)).exec = true ∧
     (m.getAttrib a).iccm = (m.getAttrib (a + 3)).iccm))

/-- Convenience constructor for concrete one-off states: page size
4 KiB as in the source default, empty last-write records. -/
def mkMem (attribs : List PageAttribs) (masks : List (List Nat))
    (res : List Reservation) (d : Nat → Nat) : Memory :=
  { pageShift := 12, attribs := attribs, masks := masks, data := d,
    reservations := res, lastWriteData := fun _ => default }

/-- A single page that is readable and writable, ordinary memory. -/
def memRW : Memory :=
  mkMem [⟨true, true, false, false, false, false⟩] [] [] (fun _ => 0)

/-- A single page that is writable but not readable. -/
def memWonly : Memory :=
  mkMem [⟨false, true, false, false, false, false⟩] [] [] (fun _ => 0)

/-- A single readable, writable memory-mapped-register page whose word
0 has write mask 1. -/
def memRegMasked : Memory :=
  mkMem [⟨true, true, false, true, false, false⟩] [[1]] [] (fun _ => 0)

/-- A single readable (not writable) memory-mapped-register page. -/
def memRegRead : Memory :=
  mkMem [⟨true, false, false, true, false, false⟩] [] [] (fun _ => 0)

/-- A readable and writable page holding byte value 7 everywhere. -/
def memSeven : Memory :=
  mkMem [⟨true, true, false, false, false, false⟩] [] [] (fun _ => 7)

/-- Two harts: hart 0 holds a valid 4-byte reservation at address 0,
hart 1 a valid 4-byte reservation at address 100. -/
def memRes : Memory :=
  mkMem [] [] [⟨0, 4, true⟩, ⟨100, 4, true⟩] (fun _ => 0)

/-- One hart with a valid 4-byte reservation at address 10. -/
def memRes10 : Memory :=
  mkMem [] [] [⟨10, 4, true⟩] (fun _ => 0)

/-- C2: whenever write, writeByte or writeRegister returns false, the
returned state is exactly the input state: no partial store, no
last-write update, nothing else mutated. -/
theorem write_failure_atomic (m : Memory) (hartId w addr v : Nat) :
    ((Memory.write m hartId w addr v).1 = false →
      (Memory.write m hartId w addr v).2 = m) ∧
    ((Memory.writeByte m hartId addr v).1 = false →
      (Memory.writeByte m hartId addr v).2 = m) ∧
    ((Memory.writeRegister m hartId addr v).1 = false →
      (Memory.writeRegister m hartId addr v).2 = m) := by
  refine ⟨?_, ?_, ?_⟩
  · intro h
    unfold Memory.write Memory.writeRegister at h ⊢
    split_ifs at h ⊢ <;> simp_all
  · intro h
    unfold Memory.writeByte at h ⊢
    split_ifs at h ⊢ <;> simp_all
  · intro h
    unfold Memory.writeRegister at h ⊢
    split_ifs at h ⊢
    simp_all

/-- C2 witness: a failing write, writeByte and writeRegister on a
concrete state (a register page that is readable but not writable, so
the plain writes fail on the permission check and the register write
fails on the misaligned address 2) leave the state untouched. -/
theorem write_failure_atomic_witness :
    ((Memory.write memRegRead 0 4 0 5).1 = false ∧
      (Memory.write memRegRead 0 4 0 5).2 = memRegRead) ∧
    ((Memory.writeByte memRegRead 0 0 5).1 = false ∧
      (Memory.writeByte memRegRead 0 0 5).2 = memRegRead) ∧
    ((Memory.writeRegister memRegRead 0 2 5).1 = false ∧
      (Memory.writeRegister memRegRead 0 2 5).2 = memRegRead) :=
  ⟨⟨by decide, (write_failure_atomic memRegRead 0 4 0 5).1 (by decide)⟩,
   ⟨by decide, (write_failure_atomic memRegRead 0 0 0 5).2.1 (by decide)⟩,
   ⟨by decide, (write_failure_atomic memRegRead 0 0 2 5).2.2 (by decide)⟩⟩

/-- C4 (code bug evidence): on a concrete state whose memory holds 7 at
address 0, a successful writeByte of 5 makes the three-argument
getLastWriteOldValue report the newly written value 5, not the previous
value 7 that its own doc comment and the claim promise; the
two-argument overload correctly reports 7. -/
theorem getLastWriteOldValue_reports_new_value :
    (Memory.writeByte memSeven 0 0 5).1 = true ∧
    Memory.getLastWriteOldValue (Memory.writeByte memSeven 0 0 5).2 0 99 99 =
      (1, 0, 5) ∧
    Memory.getLastWriteOldValuePrev (Memory.writeByte memSeven 0 0 5).2 0 99 =
      (1, 7) := by
  refine ⟨by decide, by decide, by decide⟩

/-- C9: hasLr is an exact-address match: it is true exactly when the
hart's reservation is valid and its reserved address equals the queried
address, so a valid reservation at a different address, even one inside
the reserved byte range, yields false. -/
theorem hasLr_exact (m : Memory) (hartId addr : Nat)
    (_hh : hartId < m.reservations.length) :
    Memory.hasLr m hartId addr = true ↔
      ((m.reservations.getD hartId default).valid = true ∧
       (m.reservations.getD hartId default).addr = addr) := by
  unfold Memory.hasLr
  simp [Bool.and_eq_true, beq_iff_eq]

/-- C9 witness: a valid reservation at address 10 of size 4; the query
at address 11, inside the reserved range, is false, and the query at
address 10 is true. -/
theorem hasLr_exact_witness :
    (0 < memRes10.reservations.length) ∧
    (Memory.hasLr memRes10 0 11 = true ↔
      ((memRes10.reservations.getD 0 default).valid = true ∧
       (memRes10.reservations.getD 0 default).addr = 11)) ∧
    Memory.hasLr memRes10 0 11 = false ∧
    Memory.hasLr memRes10 0 10 = true :=
  ⟨by decide, hasLr_exact memRes10 0 11 (by decide), by decide, by decide⟩

/-- C10: a successful register write records the masked value, the one
actually stored, in the hart's last-write record, so
getLastWriteNewValue reports it together with the size 4 and the
address. -/
theorem writeRegister_records_masked_value (m : Memory) (hartId addr v pa pv : Nat)
    (hok : (Memory.writeRegister m hartId addr v).1 = true) :
    Memory.getLastWriteNewValue (Memory.writeRegister m hartId addr v).2 hartId pa pv =
      (4, addr, Memory.doRegisterMasking m addr v) := by
  unfold Memory.writeRegister at hok ⊢
  split_ifs at hok ⊢ with h
  all_goals simp [Memory.getLastWriteNewValue]

/-- C10 witness: writing 255 through the mask 1 records the masked
value 1 (not the caller's 255) in the last-write record. -/
theorem writeRegister_records_masked_value_witness :
    Memory.getLastWriteNewValue (Memory.writeRegister memRegMasked 0 0 255).2 0 9 9 =
      (4, 0, Memory.doRegisterMasking memRegMasked 0 255) ∧
    Memory.doRegisterMasking memRegMasked 0 255 = 1 :=
  ⟨writeRegister_records_masked_value memRegMasked 0 0 255 9 9 (by decide), by decide⟩

theorem invalidateFrom_getD (hartId addr storeSize : Nat) :
    ∀ (l : List Reservation) (k i : Nat), i < l.length →
      (invalidateFrom hartId addr storeSize k l).getD i default =
        invalidateRes hartId addr storeSize (k + i) (l.getD i default) := by
  intro l
  induction l with
  | nil => intro k i hi; simp at hi
  | cons x xs ih =>
      intro k i hi
      cases i with
      | zero => simp [invalidateFrom]
      | succ j =>
          simp only [invalidateFrom, List.getD_cons_succ]
          rw [ih (k + 1) j (by simpa using Nat.lt_of_succ_lt_succ hi)]
          rw [show k + 1 + j = k + (j + 1) by omega]

/-- The invalidation condition the source tests, written with the
source's two truncated-subtraction comparisons, coincides with
intersection of the half-open reservation and store intervals whenever
both sizes are positive. -/
theorem code_overlap_iff (r sz a ss : Nat) (hss : 0 < ss) (hsz : 0 < sz) :
    ((r ≤ a ∧ a - r < sz) ∨ (a < r ∧ r - a < ss)) ↔
      intervalsIntersect r sz a ss := by
  unfold intervalsIntersect
  omega

/-- C5 counterexample: with a store of size 0 at address 0 by hart 1,
the store interval [0, 0) is empty and intersects nothing, yet the code
invalidates the valid reservation [0, 4) of hart 0, so "invalidated if
and only if the intervals intersect" fails as universally stated. -/
theorem invalidateOtherHartLr_empty_store_counterexample :
    ¬ intervalsIntersect 0 4 0 0 ∧
    (memRes.reservations.getD 0 default).valid = true ∧
    ((Memory.invalidateOtherHartLr memRes 1 0 0).reservations.getD 0 default).valid
      = false := by
  refine ⟨by decide, by decide, by decide⟩

/-- C5 (amended): provided the store size and the reservation size are
positive, invalidateOtherHartLr leaves every reservation's address and
size unchanged, leaves the calling hart's reservation untouched, and
clears the validity of another hart's reservation exactly when the
half-open intervals [res.addr, res.addr + res.size) and
[addr, addr + storeSize) intersect. -/
theorem invalidateOtherHartLr_overlap (m : Memory) (hartId addr storeSize i : Nat)
    (hi : i < m.reservations.length) :
    (((Memory.invalidateOtherHartLr m hartId addr storeSize).reservations.getD i default).addr
       = (m.reservations.getD i default).addr) ∧
    (((Memory.invalidateOtherHartLr m hartId addr storeSize).reservations.getD i default).size
       = (m.reservations.getD i default).size) ∧
    (i = hartId →
      ((Memory.invalidateOtherHartLr m hartId addr storeSize).reservations.getD i default)
        = m.reservations.getD i default) ∧
    (i ≠ hartId → 0 < storeSize → 0 < (m.reservations.getD i default).size →
      ((Memory.invalidateOtherHartLr m hartId addr storeSize).reservations.getD i default).valid
        = ((m.reservations.getD i default).valid &&
           ! decide (intervalsIntersect (m.reservations.getD i default).addr
               (m.reservations.getD i default).size addr storeSize))) := by
  unfold Memory.invalidateOtherHartLr
  simp only
  rw [invalidateFrom_getD hartId addr storeSize m.reservations 0 i hi]
  simp only [Nat.zero_add]
  unfold invalidateRes
  set r := m.reservations.getD i default with hr
  by_cases hih : i = hartId
  · simp [hih]
  · rw [if_neg hih]
    refine ⟨?_, ?_, fun h => absurd h hih, fun _ hss hsz => ?_⟩
    · split_ifs <;> rfl
    · split_ifs <;> rfl
    · have hiff := code_overlap_iff r.addr r.size addr storeSize hss hsz
      split_ifs with h1 h2
      · have hint : intervalsIntersect r.addr r.size addr storeSize :=
          hiff.mp (Or.inl ⟨h1.1, h1.2⟩)
        have hd : decide (intervalsIntersect r.addr r.size addr storeSize) = true :=
          decide_eq_true hint
        rw [hd]
        simp
      · have hint : intervalsIntersect r.addr r.size addr storeSize :=
          hiff.mp (Or.inr ⟨h2.1, h2.2⟩)
        have hd : decide (intervalsIntersect r.addr r.size addr storeSize) = true :=
          decide_eq_true hint
        rw [hd]
        simp
      · have hnot : ¬ intervalsIntersect r.addr r.size addr storeSize := by
          intro hint
          rcases hiff.mpr hint with h | h
          · exact h1 ⟨h.1, h.2⟩
          · exact h2 ⟨h.1, h.2⟩
        have hd : decide (intervalsIntersect r.addr r.size addr storeSize) = false :=
          decide_eq_false hnot
        rw [hd]
        simp

/-- C5 witness: hart 1 stores 4 bytes at address 2; hart 0 holds the
reservation [0, 4), which intersects [2, 6), so its validity is
cleared, while its address and size survive. -/
theorem invalidateOtherHartLr_overlap_witness :
    (((Memory.invalidateOtherHartLr memRes 1 2 4).reservations.getD 0 default).addr
       = (memRes.reservations.getD 0 default).addr) ∧
    (((Memory.invalidateOtherHartLr memRes 1 2 4).reservations.getD 0 default).size
       = (memRes.reservations.getD 0 default).size) ∧
    ((0 : Nat) = 1 →
      ((Memory.invalidateOtherHartLr memRes 1 2 4).reservations.getD 0 default)
        = memRes.reservations.getD 0 default) ∧
    ((0 : Nat) ≠ 1 → 0 < 4 → 0 < (memRes.reservations.getD 0 default).size →
      ((Memory.invalidateOtherHartLr memRes 1 2 4).reservations.getD 0 default).valid
        = ((memRes.reservations.getD 0 default).valid &&
           ! decide (intervalsIntersect (memRes.reservations.getD 0 default).addr
               (memRes.reservations.getD 0 default).size 2 4))) :=
  invalidateOtherHartLr_overlap memRes 1 2 4 0 (by decide)

/-- C8: instruction fetch succeeds exactly under the executable-based,
ICCM-compared crossing discipline: both fetch variants require the
executable attribute (never the readable one); the half-word fetch
performs the page-crossing check only when the address is odd, the word
fetch only when the address is not 4-byte aligned; and the crossing
check compares ICCM membership (not DCCM) of the two spanned pages. -/
theorem inst_fetch_exec_and_iccm (m : Memory) (a : Nat) :
    ((Memory.readInstHalfWord m a).isSome = true ↔ instFetchHalfOk m a) ∧
    ((Memory.readInstWord m a).isSome = true ↔ instFetchWordOk m a) := by
  constructor
  · unfold Memory.readInstHalfWord instFetchHalfOk
    split_ifs with h1 h2 h3 h4 <;> simp_all
  · unfold Memory.readInstWord instFetchWordOk
    split_ifs with h1 h2 h3 h4 <;> simp_all

/-- C6 counterexample: on a readable register page, a 4-byte read at
the non-word-aligned address 2 (staying inside one page) is dispatched
to the register-read path, which rejects it, so the read fails instead
of succeeding as the claim states. -/
theorem readWord_register_page_misaligned_fails :
    (Memory.getAttrib memRegRead 2).read = true ∧
    (Memory.getAttrib memRegRead 2).reg = true ∧
    Memory.getPageStartAddr memRegRead 2 = Memory.getPageStartAddr memRegRead 5 ∧
    Memory.read memRegRead 4 2 = none := by
  refine ⟨by decide, by decide, by decide, by decide⟩

/-- C6 (amended): a 4-byte read of a readable register-page address is
dispatched to the register-read path, which itself requires word
alignment: it succeeds (returning the raw, unmasked word) exactly when
the address is word-aligned, and fails when it is not; every non-word
width read of a register page fails outright. -/
theorem read_register_page (m : Memory) (a : Nat)
    (hrd : (Memory.getAttrib m a).read = true)
    (hreg : (Memory.getAttrib m a).reg = true) :
    (a % 4 = 0 → Memory.read m 4 a = some (readBytes m.data a 4)) ∧
    (a % 4 ≠ 0 → Memory.read m 4 a = none) ∧
    Memory.read m 1 a = none ∧
    Memory.read m 2 a = none ∧
    Memory.read m 8 a = none := by
  refine ⟨?_, ?_, ?_, ?_, ?_⟩ <;>
    · unfold Memory.read Memory.readRegister
      split_ifs <;> simp_all [Memory.crossCheckRead]

/-- C6 witness: on the concrete readable register page, the aligned
4-byte read at 0 succeeds with the raw word while the 2-byte read at 0
fails. -/
theorem read_register_page_witness :
    ((0 : Nat) % 4 = 0 → Memory.read memRegRead 4 0 = some (readBytes memRegRead.data 0 4)) ∧
    ((0 : Nat) % 4 ≠ 0 → Memory.read memRegRead 4 0 = none) ∧
    Memory.read memRegRead 1 0 = none ∧
    Memory.read memRegRead 2 0 = none ∧
    Memory.read memRegRead 8 0 = none :=
  read_register_page memRegRead 0 (by decide) (by decide)

/-- C3: checkWrite is an exact dry-run of write: on the same state it
returns true exactly when write would, for a 4-byte access a successful
check replaces the value with the same masked value doRegisterMasking
computes, and on a register page the value a successful write records
as stored is exactly the value checkWrite produced. checkWrite is
state-pure in the model, as in the source it touches neither the byte
buffer nor any last-write record. -/
theorem checkWrite_matches_write (m : Memory) (hartId w addr v : Nat) :
    ((Memory.checkWrite m w addr v).1 = (Memory.write m hartId w addr v).1) ∧
    (w = 4 → (Memory.checkWrite m w addr v).1 = true →
      (Memory.checkWrite m w addr v).2 = Memory.doRegisterMasking m addr v) ∧
    ((Memory.getAttrib m addr).reg = true → (Memory.write m hartId w addr v).1 = true →
      ((Memory.write m hartId w addr v).2.lastWriteData hartId).value =
        (Memory.checkWrite m w addr v).2) := by
  unfold Memory.checkWrite Memory.write Memory.writeRegister
  split_ifs <;> simp_all

/-- C3 witness: on the masked register page, the dry-run agrees with
the real write and produces the masked value 1 that the write then
records as stored. -/
theorem checkWrite_matches_write_witness :
    ((Memory.checkWrite memRegMasked 4 0 255).1 = (Memory.write memRegMasked 5 4 0 255).1) ∧
    (Memory.checkWrite memRegMasked 4 0 255).2 = Memory.doRegisterMasking memRegMasked 0 255 ∧
    ((Memory.write memRegMasked 5 4 0 255).2.lastWriteData 5).value =
      (Memory.checkWrite memRegMasked 4 0 255).2 :=
  ⟨(checkWrite_matches_write memRegMasked 5 4 0 255).1,
   (checkWrite_matches_write memRegMasked 5 4 0 255).2.1 rfl (by decide),
   (checkWrite_matches_write memRegMasked 5 4 0 255).2.2 (by decide) (by decide)⟩

theorem getAttrib_update (m : Memory) (d : Nat → Nat) (lwd : Nat → LastWriteData)
    (x : Nat) :
    Memory.getAttrib { m with data := d, lastWriteData := lwd } x =
      Memory.getAttrib m x := rfl

theorem getAttrib_data_update (m : Memory) (d : Nat → Nat) (x : Nat) :
    Memory.getAttrib { m with data := d } x = Memory.getAttrib m x := rfl

theorem crossCheckRead_update (m : Memory) (d : Nat → Nat)
    (lwd : Nat → LastWriteData) (w addr : Nat) :
    Memory.crossCheckRead { m with data := d, lastWriteData := lwd } w addr =
      Memory.crossCheckRead m w addr := rfl

theorem crossCheckRead_data_update (m : Memory) (d : Nat → Nat) (w addr : Nat) :
    Memory.crossCheckRead { m with data := d } w addr =
      Memory.crossCheckRead m w addr := rfl

/-- A successful write to a non-register page stores the bytes of the
value and records the write, leaving every other field unchanged. -/
theorem write_plain_state (m : Memory) (hartId w addr v : Nat)
    (hreg : (Memory.getAttrib m addr).reg = false)
    (hok : (Memory.write m hartId w addr v).1 = true) :
    (Memory.write m hartId w addr v).2 =
      { m with
        data := writeBytes m.data addr v w,
        lastWriteData := fun i =>
          if i = hartId then ⟨w, addr, v % 2 ^ (8 * w), readBytes m.data addr w⟩
          else m.lastWriteData i } := by
  unfold Memory.write at hok ⊢
  split_ifs at hok ⊢ <;> simp_all

theorem pow256_eq (w : Nat) : (256 : Nat) ^ w = 2 ^ (8 * w) := by
  rw [pow_mul]
  norm_num

/-- C1 counterexample: address 0 lies in a mapped, writable,
non-register page within bounds, the 1-byte write of 5 succeeds, yet
the following read fails (the page is not readable), so the round trip
as universally stated does not hold. -/
theorem roundtrip_counterexample :
    (Memory.getAttrib memWonly 0).isMapped = true ∧
    (Memory.getAttrib memWonly 0).write = true ∧
    (Memory.getAttrib memWonly 0).reg = false ∧
    (Memory.write memWonly 0 1 0 5).1 = true ∧
    Memory.read (Memory.write memWonly 0 1 0 5).2 1 0 = none := by
  refine ⟨by decide, by decide, by decide, by decide, by decide⟩

/-- C1 (amended): the round trip holds once the read permission is also
required: for a supported width, a value fitting the width and a
non-register address whose page is readable and whose read-side
crossing check passes, a successful write followed by a read of the
same width and address yields the written value. -/
theorem write_read_roundtrip (m : Memory) (hartId w addr v : Nat)
    (hw : w = 1 ∨ w = 2 ∨ w = 4 ∨ w = 8)
    (hv : v < 2 ^ (8 * w))
    (hreg : (Memory.getAttrib m addr).reg = false)
    (hrd : (Memory.getAttrib m addr).read = true)
    (hcross : Memory.crossCheckRead m w addr = true)
    (hok : (Memory.write m hartId w addr v).1 = true) :
    Memory.read (Memory.write m hartId w addr v).2 w addr = some v := by
  rw [write_plain_state m hartId w addr v hreg hok]
  unfold Memory.read
  rw [getAttrib_update, getAttrib_update, crossCheckRead_update]
  by_cases h4 : w = 4
  · subst h4
    rw [if_neg (by simp [hrd]), if_neg (by simp [hcross]), if_pos rfl,
      if_neg (by simp [hreg])]
    show some (readBytes (writeBytes m.data addr v 4) addr 4) = some v
    rw [readBytes_writeBytes, pow256_eq, Nat.mod_eq_of_lt hv]
  · rw [if_neg (by simp [hrd]), if_neg (by simp [hcross]), if_neg h4,
      if_neg (by simp [hreg])]
    show some (readBytes (writeBytes m.data addr v w) addr w) = some v
    rw [readBytes_writeBytes, pow256_eq, Nat.mod_eq_of_lt hv]

/-- C1 witness: on the readable and writable page, writing the byte 171
at address 0 and reading it back yields 171. -/
theorem write_read_roundtrip_witness :
    Memory.read (Memory.write memRW 0 1 0 171).2 1 0 = some 171 :=
  write_read_roundtrip memRW 0 1 0 171 (Or.inl rfl) (by decide) (by decide)
    (by decide) (by decide) (by decide)

/-- A word-aligned address never runs past its page end when the page
size is a multiple of 4 (page shift at least 2), so the poke crossing
probe is not taken for an aligned word. -/
theorem aligned_word_within_page (m : Memory) (addr : Nat) (ha : addr % 4 = 0)
    (hps : 2 ≤ m.pageShift) :
    addr + 4 ≤ Memory.getPageStartAddr m addr + 2 ^ m.pageShift := by
  unfold Memory.getPageStartAddr
  rw [Nat.shiftLeft_eq, Nat.shiftRight_eq_div_pow]
  have hpos : 0 < 2 ^ m.pageShift := Nat.pos_pow_of_pos _ (by norm_num)
  have hle : addr / 2 ^ m.pageShift * 2 ^ m.pageShift ≤ addr := Nat.div_mul_le_self _ _
  have hlt : addr < addr / 2 ^ m.pageShift * 2 ^ m.pageShift + 2 ^ m.pageShift := by
    conv_lhs => rw [← Nat.div_add_mod addr (2 ^ m.pageShift)]
    rw [Nat.mul_comm]
    exact Nat.add_lt_add_left (Nat.mod_lt addr hpos) _
  have hd4 : (4 : Nat) ∣ 2 ^ m.pageShift := by
    have h2 : (2 : Nat) ^ 2 ∣ 2 ^ m.pageShift := pow_dvd_pow 2 hps
    simpa using h2
  have hd4b : (4 : Nat) ∣ addr / 2 ^ m.pageShift * 2 ^ m.pageShift :=
    Dvd.dvd.mul_left hd4 _
  have key : ∀ B S : Nat, B ≤ addr → addr < B + S → 4 ∣ S → 4 ∣ B →
      addr + 4 ≤ B + S := by
    intro B S h1 h2 h3 h4
    omega
  exact key _ _ hle hlt hd4 hd4b

/-- A successful word-aligned write to a writable register page goes
through writeRegister: it stores the masked value and records it. -/
theorem write_register_state (m : Memory) (hartId addr v : Nat)
    (ha : addr % 4 = 0)
    (hwr : (Memory.getAttrib m addr).write = true)
    (hreg : (Memory.getAttrib m addr).reg = true) :
    Memory.write m hartId 4 addr v =
      (true,
       { m with
         data := writeBytes m.data addr (Memory.doRegisterMasking m addr v) 4,
         lastWriteData := fun i =>
           if i = hartId then
             ⟨4, addr, Memory.doRegisterMasking m addr v, readBytes m.data addr 4⟩
           else m.lastWriteData i }) := by
  have hcw : Memory.crossCheckWrite m 4 addr = true := by
    unfold Memory.crossCheckWrite
    rw [if_pos ha]
  unfold Memory.write Memory.writeRegister
  rw [if_neg (by simp [hwr]), if_neg (by simp [hcw]), if_pos ⟨rfl, hreg⟩,
    if_neg (by simp [ha])]

/-- A word-aligned poke of a mapped register page stores the raw value,
bypassing the mask and the last-write record. -/
theorem poke_register_state (m : Memory) (addr v : Nat)
    (ha : addr % 4 = 0)
    (hwr : (Memory.getAttrib m addr).write = true)
    (hps : 2 ≤ m.pageShift) :
    Memory.poke m 4 addr v =
      (true, { m with data := writeBytes m.data addr v 4 }) := by
  have hin := aligned_word_within_page m addr ha hps
  unfold Memory.poke
  rw [if_neg (by simp [PageAttribs.isMapped, hwr]),
    if_neg (by intro hc; exact absurd hc.1 (by omega)), if_pos rfl,
    if_neg (by simp [ha])]

/-- C7: register write masking lives on the write path only and poke
bypasses it: on a readable, writable register page at a word-aligned
address, writeWord stores the masked value, so the following readWord
returns v AND mask, while poke stores the raw value, so the following
readWord returns v; reads never apply the mask. -/
theorem register_write_masking (m : Memory) (hartId addr v : Nat)
    (ha : addr % 4 = 0)
    (hrd : (Memory.getAttrib m addr).read = true)
    (hwr : (Memory.getAttrib m addr).write = true)
    (hreg : (Memory.getAttrib m addr).reg = true)
    (hv : v < 2 ^ 32)
    (hps : 2 ≤ m.pageShift) :
    ((Memory.write m hartId 4 addr v).1 = true ∧
     Memory.read (Memory.write m hartId 4 addr v).2 4 addr =
       some (v &&& Memory.getMemoryMappedMask m addr)) ∧
    ((Memory.poke m 4 addr v).1 = true ∧
     Memory.read (Memory.poke m 4 addr v).2 4 addr = some v) := by
  have hcr : Memory.crossCheckRead m 4 addr = true := by
    unfold Memory.crossCheckRead
    rw [if_pos ha]
  rw [write_register_state m hartId addr v ha hwr hreg,
    poke_register_state m addr v ha hwr hps]
  refine ⟨⟨rfl, ?_⟩, ⟨rfl, ?_⟩⟩
  · show Memory.read
      { m with
        data := writeBytes m.data addr (Memory.doRegisterMasking m addr v) 4,
        lastWriteData := fun i =>
          if i = hartId then
            ⟨4, addr, Memory.doRegisterMasking m addr v, readBytes m.data addr 4⟩
          else m.lastWriteData i } 4 addr =
      some (v &&& Memory.getMemoryMappedMask m addr)
    unfold Memory.read Memory.readRegister
    rw [getAttrib_update, getAttrib_update, crossCheckRead_update]
    rw [if_neg (by simp [hrd]), if_neg (by simp [hcr]), if_pos rfl,
      if_pos hreg, if_neg (by simp [ha])]
    show some (readBytes (writeBytes m.data addr (Memory.doRegisterMasking m addr v) 4) addr 4)
      = some (v &&& Memory.getMemoryMappedMask m addr)
    rw [readBytes_writeBytes]
    have hlt : Memory.doRegisterMasking m addr v < 256 ^ 4 := by
      have hand : Memory.doRegisterMasking m addr v ≤ v := Nat.and_le_left
      have : (256 : Nat) ^ 4 = 2 ^ 32 := by norm_num
      omega
    rw [Nat.mod_eq_of_lt hlt]
    rfl
  · show Memory.read { m with data := writeBytes m.data addr v 4 } 4 addr = some v
    unfold Memory.read Memory.readRegister
    rw [getAttrib_data_update, getAttrib_data_update, crossCheckRead_data_update]
    rw [if_neg (by simp [hrd]), if_neg (by simp [hcr]), if_pos rfl,
      if_pos hreg, if_neg (by simp [ha])]
    show some (readBytes (writeBytes m.data addr v 4) addr 4) = some v
    rw [readBytes_writeBytes]
    have : (256 : Nat) ^ 4 = 2 ^ 32 := by norm_num
    rw [this, Nat.mod_eq_of_lt hv]

/-- C7 witness: on the register page with write mask 1 for word 0,
writing 255 then reading yields 255 AND 1 = 1, while poking 255 then
reading yields the unmasked 255, the exact scenario of the spec. -/
theorem register_write_masking_witness :
    (((Memory.write memRegMasked 0 4 0 255).1 = true ∧
      Memory.read (Memory.write memRegMasked 0 4 0 255).2 4 0 =
        some (255 &&& Memory.getMemoryMappedMask memRegMasked 0)) ∧
     ((Memory.poke memRegMasked 4 0 255).1 = true ∧
      Memory.read (Memory.poke memRegMasked 4 0 255).2 4 0 = some 255)) ∧
    (255 : Nat) &&& Memory.getMemoryMappedMask memRegMasked 0 = 1 :=
  ⟨register_write_masking memRegMasked 0 0 255 (by decide) (by decide) (by decide)
     (by decide) (by decide) (by decide),
   by decide⟩

/-- One executable (neither readable nor writable) page. -/
def memExec : Memory :=
  mkMem [⟨false, false, true, false, false, false⟩] [] [] (fun _ => 0)

/-- C8 witness: the fetch equivalence instantiated on a concrete
executable-only page; both fetch forms succeed at address 0 although
the page is not readable (a data read there fails). -/
theorem inst_fetch_exec_and_iccm_witness :
    (((Memory.readInstHalfWord memExec 0).isSome = true ↔ instFetchHalfOk memExec 0) ∧
     ((Memory.readInstWord memExec 0).isSome = true ↔ instFetchWordOk memExec 0)) ∧
    (Memory.readInstHalfWord memExec 0).isSome = true ∧
    Memory.read memExec 2 0 = none :=
  ⟨inst_fetch_exec_and_iccm memExec 0, by decide, by decide⟩
